import Mathlib

/-!
Verification development for the pyconduit LaTeX conversion core
(`pyconduit/shared/latex/core.py` and `pyconduit/shared/latex/converter.py`).

The Python code is shallowly embedded: pure functions become Lean functions,
the mutable document tree becomes an inductive type rewritten functionally,
exceptions become `Except String`, and the external configuration bundle
becomes an explicit `LatexConfig` record.  The external TexSoup parser is a
black box in the source; trees produced by it are values of `TexList`, and
the parsing step itself is a parameter constrained per the collaborator
contract in theorems that need it.
-/

namespace Conduit

/-! ## Python string primitives

Executable models of the Python `str` operations used by the source
(`str.strip`, `str.replace`, `str.split(sep, 1)`, `in`, `%`-formatting and
`str.format`).  All are structural (fueled where needed) so that concrete
runs reduce inside the kernel. -/

/-- Python whitespace for `str.strip` (ASCII subset of Python's default). -/
def pyWhitespaceB (c : Char) : Bool :=
  c == ' ' || c == '\t' || c == '\n' || c == '\r' || c == '\x0b' || c == '\x0c'

/-- Drop leading Python whitespace from a character list. -/
def trimLeftChars : List Char → List Char
  | [] => []
  | c :: rest => if pyWhitespaceB c then trimLeftChars rest else c :: rest

/-- Model of Python `str.strip()` with no argument. -/
def pyStrip (s : String) : String :=
  ⟨(trimLeftChars (trimLeftChars s.data.reverse).reverse)⟩

/-- Fueled worker for `pyReplace`: replaces every non-overlapping occurrence
of `pat`, scanning left to right, exactly like Python `str.replace`.  The
fuel is the length of the text, which suffices since every step consumes at
least one character.  An empty pattern is left untouched (the source never
replaces an empty string). -/
def listReplace (pat repl : List Char) : Nat → List Char → List Char
  | 0, t => t
  | _ + 1, [] => []
  | fuel + 1, c :: rest =>
    if !pat.isEmpty && pat.isPrefixOf (c :: rest) then
      repl ++ listReplace pat repl fuel (List.drop pat.length (c :: rest))
    else
      c :: listReplace pat repl fuel rest

/-- Model of Python `str.replace(pat, repl)` (all occurrences). -/
def pyReplace (s pat repl : String) : String :=
  ⟨listReplace pat.data repl.data s.data.length s.data⟩

/-- Find the first occurrence of `pat`: returns the text before it and the
text after it, or `none` when `pat` does not occur.  This models both
Python's `pat in s` test (`≠ none`) and `s.split(pat, 1)`. -/
def findSplit (pat : List Char) : List Char → Option (List Char × List Char)
  | [] => none
  | c :: rest =>
    if pat.isPrefixOf (c :: rest) then some ([], List.drop pat.length (c :: rest))
    else
      match findSplit pat rest with
      | some (pre, post) => some (c :: pre, post)
      | none => none

/-- Python `sep.join(parts)`. -/
def joinWith (sep : String) : List String → String
  | [] => ""
  | [x] => x
  | x :: rest => x ++ sep ++ joinWith sep rest

/-- Numeric value of a digit list (used by the `str.format` model). -/
def natOfDigits : List Char → Nat → Nat
  | [], acc => acc
  | c :: rest, acc => natOfDigits rest (acc * 10 + (c.toNat - 48))

/-- Fueled worker for `pyFormat`: Python `str.format(*args)` restricted to
positional fields `{N}` plus the escapes `{{` and `}}`, which is everything
the source's command contents can produce.  Errors model the corresponding
Python exceptions (`IndexError`, `ValueError`, `KeyError`). -/
def formatChars (args : List String) : Nat → List Char → Except String (List Char)
  | 0, l => .ok l
  | _ + 1, [] => .ok []
  | fuel + 1, '\x7b' :: '\x7b' :: rest => do
    let tail ← formatChars args fuel rest
    .ok ('\x7b' :: tail)
  | fuel + 1, '\x7d' :: '\x7d' :: rest => do
    let tail ← formatChars args fuel rest
    .ok ('\x7d' :: tail)
  | fuel + 1, '\x7b' :: rest =>
    let ds := rest.takeWhile (fun c => c.isDigit)
    let after := rest.drop ds.length
    match after with
    | '\x7d' :: rest2 =>
      if ds.isEmpty then .error ("KeyError: empty field name in format string")
      else
        match args.get? (natOfDigits ds 0) with
        | some a => do
          let tail ← formatChars args fuel rest2
          .ok (a.data ++ tail)
        | none =>
          .error ("IndexError: Replacement index " ++ toString (natOfDigits ds 0) ++
            " out of range for positional args tuple")
    | _ => .error ("ValueError: bad format field in format string")
  | _ + 1, '\x7d' :: _ => .error ("ValueError: single closing brace in format string")
  | fuel + 1, c :: rest => do
    let tail ← formatChars args fuel rest
    .ok (c :: tail)

/-- Model of Python `content.format(*args)` for the contents the source
builds (positional fields only). -/
def pyFormat (content : String) (args : List String) : Except String String := do
  let l ← formatChars args content.data.length content.data
  .ok ⟨l⟩

/-- Fueled worker for `pyPercent`: Python `fmt % mapping` restricted to
`%(name)i` / `%(name)s` fields and the `%%` escape, which covers every
format string in the source (`fmt`, `cfmt`, item formats). -/
def percentChars (data : List (String × String)) : Nat → List Char → Except String (List Char)
  | 0, l => .ok l
  | _ + 1, [] => .ok []
  | fuel + 1, '%' :: '%' :: rest => do
    let tail ← percentChars data fuel rest
    .ok ('%' :: tail)
  | fuel + 1, '%' :: '(' :: rest =>
    let nameCs := rest.takeWhile (fun c => c != ')')
    let after := rest.drop nameCs.length
    match after with
    | ')' :: conv :: rest2 =>
      if conv == 'i' || conv == 's' || conv == 'd' then
        match data.lookup (⟨nameCs⟩ : String) with
        | some v => do
          let tail ← percentChars data fuel rest2
          .ok (v.data ++ tail)
        | none => .error ("KeyError: " ++ (⟨nameCs⟩ : String))
      else .error ("ValueError: unsupported format character")
    | _ => .error ("ValueError: incomplete format key")
  | _ + 1, '%' :: _ => .error ("ValueError: unsupported format character")
  | fuel + 1, c :: rest => do
    let tail ← percentChars data fuel rest
    .ok (c :: tail)

/-- Model of Python `fmt % data` for the named fields the source uses. -/
def pyPercent (fmt : String) (data : List (String × String)) : Except String String := do
  let l ← percentChars data fmt.data.length fmt.data
  .ok ⟨l⟩

/-! ## Configuration

Values the source reads from the external configuration bundle
(`get_config("latex")`, `get_config("localization")`).  The letter-skip
configuration is pre-converted to indices exactly as module-level code of
core.py does (`ord(c) - ord(first_problem_character)`). -/

/-- External configuration bundle of `core.py` / `converter.py`. -/
structure LatexConfig where
  firstLetter : Char
  skipIndices : List Int
  charLimit : Nat
  nestingLimit : Nat
  excessStacking : Nat
  noSheetIdMsg : String
  noSheetNameMsg : String

/-- Module constant `priority_cap = 10000` of core.py. -/
def priority_cap : Int := 10000

/-! ## MetadataNode (core.py lines 16-37)

The Python kwargs dictionary carries exactly the keys the source ever
stores: `cls` (always), `text`, `num`, `conduit_include`, `conduit_num`.
An `Option` field is `none` when the key is absent from the dict. -/

structure MetadataNodeS where
  cls : String
  collect_text : Bool
  text : Option String
  num : Option String
  conduit_include : Option Bool
  conduit_num : Option String
deriving DecidableEq, Repr

/-- MetadataNode construction with only a class tag (`MetadataNode(cls)`).
`collect_text` defaults to `True` in the source. -/
def mkMeta (cls : String) : MetadataNodeS :=
  ⟨cls, true, none, none, none, none⟩

/-- Separator `"\n\n"` as a character list. -/
def dblNewline : List Char := ['\n', '\n']

/-- Finalization part of `MetadataNode.collect` (the branch entered when the
node does not collect text or its buffer is non-empty): for a collecting
node, a buffer containing a double newline is split at the first one, the
prefix staying as the object's text and the suffix returned as excess.
Returns (updated node, completed descriptor, excess text); the descriptor is
the node's own kwargs dict, hence equal to the updated node. -/
def MetadataNodeS.finalize (m : MetadataNodeS) : MetadataNodeS × Option MetadataNodeS × String :=
  if m.collect_text then
    match findSplit dblNewline (m.text.getD ("")).data with
    | some (pre, post) =>
      let m2 := {m with text := some ⟨pre⟩}
      (m2, some m2, ⟨post⟩)
    | none => (m, some m, "")
  else (m, some m, "")

/-- Model of `MetadataNode.collect` (core.py lines 22-37).  `t = none` is
the flush sentinel (`None` in Python).  Returns the updated node, the
completed object descriptor if the node finalized, and any excess text. -/
def MetadataNodeS.collect (m : MetadataNodeS) (t : Option String) :
    MetadataNodeS × Option MetadataNodeS × String :=
  let m1 := if m.collect_text && m.text.isNone then {m with text := some ("")} else m
  match t with
  | some s =>
    if m1.collect_text then
      ({m1 with text := some (m1.text.getD ("") ++ s)}, none, "")
    else m1.finalize
  | none =>
    if !m1.collect_text || (m1.text.getD ("") != ("")) then m1.finalize
    else (m1, none, "")

/-! ## Document tree

Model of the TexSoup tree the source manipulates, per the collaborator
contract of the spec: a node is a command/environment invocation (name,
argument groups, contents), a text or math leaf, or — after rewriting
started — a spliced-in `MetadataNode` value.  Argument groups are tagged
brace (required) or bracket (optional).  Custom mutual lists keep every
traversal structurally recursive. -/

mutual
inductive TexElem where
  | text (s : String)
  | math (s : String)
  | mnode (m : MetadataNodeS)
  | cmd (name : String) (isEnv : Bool) (args : TexArgList) (contents : TexList)

inductive TexArgList where
  | nil
  | acons (isBrace : Bool) (contents : TexList) (rest : TexArgList)

inductive TexList where
  | nil
  | cons (head : TexElem) (tail : TexList)
end

/-- Singleton tree list. -/
def singleTL (e : TexElem) : TexList := .cons e .nil

/-- Append of tree lists. -/
def tlAppend : TexList → TexList → TexList
  | .nil, l => l
  | .cons x rest, l => .cons x (tlAppend rest l)

/-- Python `str()` of a spliced-in MetadataNode value: CPython's default
object repr (the memory address is elided to keep the model deterministic).
Only its length ever matters, for the mid-rewrite size check. -/
def metaReprStr : String := "<pyconduit.shared.latex.core.MetadataNode object>"

mutual
/-- Serialization `str(node)` of a single tree node, per the collaborator
contract ("faithful re-serialization including all unexpanded markup"). -/
def elemStr : TexElem → String
  | .text s => s
  | .math s => s
  | .mnode _ => metaReprStr
  | .cmd name isEnv args contents =>
    if isEnv then
      ("\\begin\x7b") ++ name ++ ("\x7d") ++ argsStr args ++ tlStr contents ++
        ("\\end\x7b") ++ name ++ ("\x7d")
    else
      ("\\") ++ name ++ argsStr args ++
        (match contents with
         | .nil => ""
         | _ => (" ") ++ tlStr contents)

/-- Serialization of an argument group list. -/
def argsStr : TexArgList → String
  | .nil => ""
  | .acons isBrace contents rest =>
    (if isBrace then ("\x7b") ++ tlStr contents ++ ("\x7d")
     else ("[") ++ tlStr contents ++ ("]")) ++ argsStr rest

/-- Serialization of a node list. -/
def tlStr : TexList → String
  | .nil => ""
  | .cons x rest => elemStr x ++ tlStr rest
end

/-! ## Conversion context

The single shared `context` dict of `convert_latex`: the two iterators and
the free-form global attributes written by `GlobalConfig` commands.  The
`commands` entry of the Python dict is the command table, which never
changes during the rewrite loop; it is passed separately. -/

structure ConvCtx where
  iterators : List (String × Int)
  attrs : List (String × String)
deriving DecidableEq, Repr

/-- Context at the start of a conversion
(`{"iterators": {"problem": 0, "letter": 0}, ...}`). -/
def freshCtx : ConvCtx := ⟨[(("problem"), 0), (("letter"), 0)], []⟩

/-- Read an iterator (`context["iterators"][name]`; both keys are always
present in the source, so the default is never used). -/
def itGet (ctx : ConvCtx) (name : String) : Int :=
  (ctx.iterators.lookup name).getD 0

/-- Write into an association list, updating in place when the key exists
(Python dict assignment keeps the original key position). -/
def assocSetI (key : String) (v : Int) : List (String × Int) → List (String × Int)
  | [] => [(key, v)]
  | (k, w) :: rest => if k = key then (k, v) :: rest else (k, w) :: assocSetI key v rest

/-- Write into a string-valued association list, Python-dict style. -/
def assocSetS (key : String) (v : String) : List (String × String) → List (String × String)
  | [] => [(key, v)]
  | (k, w) :: rest => if k = key then (k, v) :: rest else (k, w) :: assocSetS key v rest

/-! ## Commands (core.py classes)

One closed variant per `LatexCommand` subclass.  `TextCommand` stores its
content already transformed by `hash_regex` (done in `__init__`), its
priority field (default 0, `set_priority` is never called in the source so
only user/builtin construction sets it). -/

inductive LatexCmd where
  | textCommand (content : String) (numArgs : Nat) (optionalArg : Option String)
      (trimContents : Bool) (prio : Int)
  | textEnv (content : String) (numArgs : Nat) (metaname : String)
      (optionalArg : Option String) (trimContents : Bool)
  | itemExtractor (fmt : String)
  | errorCommand (replName : String)
  | globalConfig (targetName : String) (strip : Bool)
  | problemMacroCmd (fmt : String) (letter : Option Int) (problem : Option Int)
      (conduitInclude : Bool) (cfmt : String)
deriving DecidableEq, Repr

/-! ### hash_regex substitution (core.py line 87, 90)

`re.sub(r"(^|[^\\])#([0-9])", lambda t: f"{t[1]}{{{int(t[2]) - 1}}}", content)`:
every `#N` at the start of the string or after a non-backslash character
becomes `{N-1}`, keeping the preceding character.  Scanning is left to
right and non-overlapping, like `re.sub`. -/

/-- Replacement text for a matched digit: `{N-1}` (as in the source,
`#0` would produce the field `{-1}`). -/
def hashRepl (d : Char) : List Char :=
  ('\x7b' :: (toString ((d.toNat : Int) - 48 - 1)).data) ++ ['\x7d']

/-- Worker for positions after the first: handles the `[^\\]#N` alternative.
A match needs three characters (preceding char, `#`, digit); with fewer
than three left no match can start, and on a non-match scanning advances by
one character.  The fuel is the text length: every step consumes at least
one character. -/
def hashSubCore : Nat → List Char → List Char
  | 0, l => l
  | _ + 1, [] => []
  | _ + 1, [c] => [c]
  | _ + 1, [c, d] => [c, d]
  | fuel + 1, c :: d :: e :: rest2 =>
    if c != '\\' && d == '#' && e.isDigit then c :: (hashRepl e ++ hashSubCore fuel rest2)
    else c :: hashSubCore fuel (d :: e :: rest2)

/-- Model of the `hash_regex` substitution, including the `^#N` match at
position zero. -/
def hashSub (s : String) : String :=
  match s.data with
  | '#' :: d :: rest =>
    if d.isDigit then ⟨hashRepl d ++ hashSubCore rest.length rest⟩
    else ⟨hashSubCore s.data.length s.data⟩
  | _ => ⟨hashSubCore s.data.length s.data⟩

/-- `TextCommand.__init__`: the content is transformed once at construction
time; priority is the class default 0. -/
def mkTextCommand (content : String) (numArgs : Nat) (optionalArg : Option String)
    (trimContents : Bool) : LatexCmd :=
  .textCommand (hashSub content) numArgs optionalArg trimContents 0

/-- `TextEnv.__init__` (inherits the content transformation). -/
def mkTextEnv (content : String) (numArgs : Nat) (metaname : String)
    (optionalArg : Option String) (trimContents : Bool) : LatexCmd :=
  .textEnv (hashSub content) numArgs metaname optionalArg trimContents

/-- `get_priority`: `TextEnv` overrides with -1, `ProblemMacro` with -333,
everything else uses the stored/default priority 0. -/
def getPriority : LatexCmd → Int
  | .textCommand _ _ _ _ p => p
  | .textEnv _ _ _ _ _ => -1
  | .itemExtractor _ => 0
  | .errorCommand _ => 0
  | .globalConfig _ _ => 0
  | .problemMacroCmd _ _ _ _ _ => -333

/-- Command table: a Python dict from command name to command. -/
def CmdTable := List (String × LatexCmd)

/-- Dict lookup. -/
def dictLookup (tbl : CmdTable) (key : String) : Option LatexCmd :=
  List.lookup key tbl

/-- Dict insertion / overwrite, preserving the position of existing keys. -/
def dictInsert (key : String) (v : LatexCmd) : CmdTable → CmdTable
  | [] => [(key, v)]
  | (k, w) :: rest => if k = key then (k, v) :: rest else (k, w) :: dictInsert key v rest

/-- Flattened argument contents of an invocation, as in
`TextCommand.recursion_ready`
(`[x if arg.contents else "" for arg in cmd.args for x in arg.contents]` —
the comprehension yields exactly the concatenation of all argument
contents). -/
def argContentsFlat : TexArgList → List TexElem
  | .nil => []
  | .acons _ contents rest => tlToList contents ++ argContentsFlat rest
where
  tlToList : TexList → List TexElem
    | .nil => []
    | .cons x rest => x :: tlToList rest

/-- True when an element is a command invocation whose name is a key of the
table (`isinstance(c, TexCmd) and c.name in all_commands`). -/
def isTableCmd (tbl : CmdTable) : TexElem → Bool
  | .cmd name _ _ _ => (dictLookup tbl name).isSome
  | _ => false

/-- `recursion_ready`: `TextCommand`/`TextEnv` require their argument
groups free of table-recognized invocations; `ItemExtractor` requires the
same of its contents; the base class always answers true. -/
def recursionReady (c : LatexCmd) (tbl : CmdTable) (args : TexArgList)
    (contents : TexList) : Bool :=
  match c with
  | .textCommand _ _ _ _ _ => !(argContentsFlat args).any (isTableCmd tbl)
  | .textEnv _ _ _ _ _ => !(argContentsFlat args).any (isTableCmd tbl)
  | .itemExtractor _ => !(argContentsFlat.tlToList contents).any (isTableCmd tbl)
  | _ => true

/-! ## Command application (the `apply` methods)

Python `apply` returns a string, a `MetadataNode`, a tuple of those, or
(never in this code base) `False`; `invoke` splices the result into the
node's parent, wrapping strings as text leaves.  The embedding returns the
splice-ready node list directly, together with the possibly-updated shared
context. -/

/-- Error message of `TextCommand.apply` for a wrong argument count. -/
def arityMsg (name : String) (expected got : Nat) : String :=
  ("Invalid number of arguments for command ") ++ name ++ (": expected ") ++
    toString expected ++ (", got ") ++ toString got ++ (".")

/-- `TextCommand.apply` (core.py lines 95-112).  `content` is the
already-transformed template; `name` is `node.name` (used in the error
message only). -/
def TextCommand_apply (content : String) (numArgs : Nat) (optionalArg : Option String)
    (trimContents : Bool) (name : String) (args : List String) : Except String String :=
  if args.length > numArgs ∨ args.length + 1 < numArgs ∨
      (args.length + 1 = numArgs ∧ optionalArg = none) then
    .error (arityMsg name numArgs args.length)
  else
    let args1 := if args.length = numArgs then args else optionalArg.getD ("") :: args
    let args2 := if trimContents then args1.map pyStrip else args1
    pyFormat content args2

/-- A `MetadataNode("text", text=...)` value as built by `ItemExtractor`. -/
def mkMetaWithText (cls : String) (t : String) : MetadataNodeS :=
  ⟨cls, true, some t, none, none, none⟩

/-- Item-collection loop of `ItemExtractor.apply`: walks the environment's
contents, starting a new entry at each `\item` child (its serialization
minus the six characters of `"\item "`), appending every other non-falsy
child's serialization to the last entry, and failing when a non-falsy child
precedes the first `\item`. -/
def itemLoop : TexList → List String → Except String (List String)
  | .nil, ans => .ok ans.reverse
  | .cons child rest, ans =>
    match child with
    | .text s =>
      if s = ("") then itemLoop rest ans
      else
        match ans with
        | [] => .error (("ItemExtracted nodes should begin with an \\item command, got ")
            ++ s ++ (" instead."))
        | last :: more => itemLoop rest ((last ++ s) :: more)
    | .cmd n ie a c =>
      if n = ("item") then
        itemLoop rest (((elemStr (.cmd n ie a c)).drop 6) :: ans)
      else
        match ans with
        | [] => .error (("ItemExtracted nodes should begin with an \\item command, got ")
            ++ elemStr child ++ (" instead."))
        | last :: more => itemLoop rest ((last ++ elemStr child) :: more)
    | other =>
      match ans with
      | [] => .error (("ItemExtracted nodes should begin with an \\item command, got ")
          ++ elemStr other ++ (" instead."))
      | last :: more => itemLoop rest ((last ++ elemStr other) :: more)

/-- Render the collected items through the extractor's `%`-format with
`index` / `item` keys (Python `enumerate`). -/
def itemRender (fmt : String) (idx : Nat) : List String → Except String (List String)
  | [] => .ok []
  | item :: rest => do
    let s ← pyPercent fmt [(("index"), toString idx), (("item"), item)]
    let tail ← itemRender fmt (idx + 1) rest
    .ok (s :: tail)

/-- `ItemExtractor.apply` (core.py lines 123-137): returns the reformatted
text block plus a fresh text boundary. -/
def ItemExtractor_apply (fmt : String) (contents : TexList) :
    Except String TexList := do
  let ans ← itemLoop contents []
  let items ← itemRender fmt 0 ans
  .ok (.cons (.mnode (mkMetaWithText ("text") (("\n\n") ++ joinWith ("\n") items)))
       (singleTL (.mnode (mkMeta ("text")))))

/-- `ProblemMacro.update_iterator` (core.py lines 195-203): `None` is a
no-op, a positive value is added to the counter, a non-positive value is
assigned to it. -/
def update_iterator (ctx : ConvCtx) (itName : String) (value : Option Int) : ConvCtx :=
  match value with
  | none => ctx
  | some v =>
    if v > 0 then {ctx with iterators := assocSetI itName (itGet ctx itName + v) ctx.iterators}
    else {ctx with iterators := assocSetI itName v ctx.iterators}

/-- `ProblemMacro.apply` (core.py lines 205-223).  The letter string is
computed from the configured first letter and skip indices; `args` are the
stringified argument groups (always strings in `convert_latex`, so only the
`isinstance(args[0], str)` branch of the source is reachable). -/
def ProblemMacro_apply (cfg : LatexConfig) (fmt : String) (letter problem : Option Int)
    (conduitInclude : Bool) (cfmt : String) (ctx : ConvCtx) (args : List String) :
    Except String (ConvCtx × TexList) := do
  let ctx1 := update_iterator ctx ("problem") problem
  let ctx2 := update_iterator ctx1 ("letter") letter
  let letterVal := itGet ctx2 ("letter")
  let letterIndex := letterVal + ((cfg.skipIndices.filter (fun i => i < letterVal)).length : Int)
  let letterStr : String := ⟨[Char.ofNat ((cfg.firstLetter.toNat : Int) + letterIndex).toNat]⟩
  let extraText := match args.head? with
    | none => ("")
    | some a => (" (") ++ a ++ (")")
  let data := [(("z"), toString (itGet ctx2 ("problem"))), (("leth"), letterStr),
               (("ext"), extraText)]
  let f ← pyPercent fmt data
  let cf ← pyPercent cfmt data
  let f2 := pyReplace f ("))") (")")
  .ok (ctx2, singleTL (.mnode ⟨("problem"), true, none, some f2, some conduitInclude, some cf⟩))

/-- Error message of the mid-rewrite size check (core.py line 269). -/
def sizeMsg (cfg : LatexConfig) (got : Nat) : String :=
  ("File size limit exceeded (max size ") ++ toString cfg.charLimit ++
    (", got size ") ++ toString got ++ (").")

/-- Error message of the nesting limit (core.py line 275). -/
def nestingMsg (cfg : LatexConfig) : String :=
  ("Command nesting limit of ") ++ toString cfg.nestingLimit ++ (" exceeded.")

/-- Stringified argument data of an invocation (core.py line 264):
space-joined serializations of each group's contents, or the empty string
for an empty group. -/
def argDataOf : TexArgList → List String
  | .nil => []
  | .acons _ contents rest =>
    joinWith (" ") ((argContentsFlat.tlToList contents).map elemStr) :: argDataOf rest

/-- Dispatch of `callback.apply(context, cmd, *arg_data)` over the closed
command variant set, returning the updated context and the splice-ready
replacement (strings wrapped as text leaves, as `invoke` does). -/
def applyCmd (cfg : LatexConfig) (c : LatexCmd) (ctx : ConvCtx) (name : String)
    (contents : TexList) (argData : List String) : Except String (ConvCtx × TexList) :=
  match c with
  | .textCommand content numArgs optionalArg trimContents _ => do
    let s ← TextCommand_apply content numArgs optionalArg trimContents name argData
    .ok (ctx, singleTL (.text s))
  | .textEnv content _ metaname _ _ =>
    if argData.length ≠ 0 then
      .error (("Invalid number of arguments for environment ") ++ name ++
        (": expected 0, got ") ++ toString argData.length ++ ("."))
    else do
      let s ← pyFormat content [joinWith ("") ((argContentsFlat.tlToList contents).map elemStr)]
      .ok (ctx, .cons (.mnode (mkMeta metaname))
            (.cons (.text s) (singleTL (.mnode (mkMeta ("text"))))))
  | .itemExtractor fmt => do
    let repl ← ItemExtractor_apply fmt contents
    .ok (ctx, repl)
  | .errorCommand replName =>
    .error (("Invalid command \\") ++ name ++ (". Use \\") ++ replName ++ (" instead."))
  | .globalConfig targetName strip =>
    match argData.head? with
    | none => .error ("IndexError: tuple index out of range")
    | some a =>
      .ok ({ctx with attrs := assocSetS targetName (if strip then pyStrip a else a) ctx.attrs},
        singleTL (.text ("")))
  | .problemMacroCmd fmt letter problem conduitInclude cfmt =>
    ProblemMacro_apply cfg fmt letter problem conduitInclude cfmt ctx argData

/-! ## The rewrite pass (one priority level)

Model of one `for cmd in soup.find_all(command_keys)` sweep of
`convert_latex` (core.py lines 259-269).  `find_all` yields matching
invocation nodes in document order, live against the mutating tree; the
embedding walks the tree once in document order, expanding every
recursion-ready matching node, splicing its replacement into the containing
child list (the effect of `LatexCommand.invoke`, including its special case
for a node sitting inside a parent argument group), and not re-scanning
replacement contents within the same sweep (a lazily resumed generator
never revisits the splice position).  After every expansion the serialized
length of the whole tree is checked against the character limit; the `outer`
argument carries the serialized length of everything outside the sublist
being processed so that the check sees the whole tree. -/

/-- Serialized length of the separator `elemStr` emits between a
non-environment command and its non-empty contents. -/
def contentsSep : Bool → TexList → Nat
  | true, _ => 0
  | false, .nil => 0
  | false, .cons _ _ => 1

mutual
/-- Process one node.  Returns the splice result, the updated context, and
whether any expansion happened in this subtree.  The expansion fires when
the node's name is one of the level's keys and its table command is
recursion-ready (`if not callback.recursion_ready(...): continue`);
otherwise the sweep descends into the node's argument groups and contents,
which `find_all` still visits. -/
def procElem (cfg : LatexConfig) (tbl : CmdTable) (keys : List String) (outer : Nat)
    (ctx : ConvCtx) : TexElem → Except String (TexList × ConvCtx × Bool)
  | .cmd name isEnv args contents =>
    match (if keys.contains name then dictLookup tbl name else none).filter
        (fun c => recursionReady c tbl args contents) with
    | some c =>
      match applyCmd cfg c ctx name contents (argDataOf args) with
      | .error e => .error e
      | .ok (ctx1, repl) =>
        let soupLen := outer + (tlStr repl).length
        if soupLen > cfg.charLimit then .error (sizeMsg cfg soupLen)
        else .ok (repl, ctx1, true)
    | none =>
      -- Serialized length of this node besides its argument groups and
      -- contents: the bare shell plus, for a non-environment command with
      -- non-empty contents, the one separator space `elemStr` emits.  A
      -- non-empty contents list stays non-empty under the sweep (every
      -- splice result is non-empty), so the separator is present in the
      -- whole tree at every size check below this node.
      let shell := (elemStr (.cmd name isEnv .nil .nil)).length
      let sep := contentsSep isEnv contents
      match procArgs cfg tbl keys (outer + shell + sep + (tlStr contents).length) ctx args with
      | .error e => .error e
      | .ok (args1, ctx1, b1) =>
        match procList cfg tbl keys (outer + shell + sep + (argsStr args1).length) ctx1 contents with
        | .error e => .error e
        | .ok (contents1, ctx2, b2) =>
          .ok (singleTL (.cmd name isEnv args1 contents1), ctx2, b1 || b2)
  | other => .ok (singleTL other, ctx, false)

/-- Process the groups of an argument list in order. -/
def procArgs (cfg : LatexConfig) (tbl : CmdTable) (keys : List String) (outer : Nat)
    (ctx : ConvCtx) : TexArgList → Except String (TexArgList × ConvCtx × Bool)
  | .nil => .ok (.nil, ctx, false)
  | .acons isBrace contents rest =>
    match procList cfg tbl keys (outer + 2 + (argsStr rest).length) ctx contents with
    | .error e => .error e
    | .ok (contents1, ctx1, b1) =>
      match procArgs cfg tbl keys (outer + 2 + (tlStr contents1).length) ctx1 rest with
      | .error e => .error e
      | .ok (rest1, ctx2, b2) => .ok (.acons isBrace contents1 rest1, ctx2, b1 || b2)

/-- Process the nodes of a child list in order. -/
def procList (cfg : LatexConfig) (tbl : CmdTable) (keys : List String) (outer : Nat)
    (ctx : ConvCtx) : TexList → Except String (TexList × ConvCtx × Bool)
  | .nil => .ok (.nil, ctx, false)
  | .cons x rest =>
    match procElem cfg tbl keys (outer + (tlStr rest).length) ctx x with
    | .error e => .error e
    | .ok (xs1, ctx1, b1) =>
      match procList cfg tbl keys (outer + (tlStr xs1).length) ctx1 rest with
      | .error e => .error e
      | .ok (rest1, ctx2, b2) => .ok (tlAppend xs1 rest1, ctx2, b1 || b2)
end

/-! ## The priority scan and the outer loop (core.py lines 254-275) -/

/-- Insert a priority into a descending sorted duplicate-free list. -/
def insertDesc (x : Int) : List Int → List Int
  | [] => [x]
  | y :: ys => if x > y then x :: y :: ys else if x = y then y :: ys else y :: insertDesc x ys

/-- `sorted(set(c.get_priority() for c in context_commands.values()),
reverse=True)`. -/
def all_priorities (tbl : CmdTable) : List Int :=
  (tbl.map (fun kv => getPriority kv.2)).foldr insertDesc []

/-- `command_keys`: the names mapped to a command at exactly this priority,
in dict order. -/
def keysFor (tbl : CmdTable) (p : Int) : List String :=
  tbl.filterMap (fun kv => if getPriority kv.2 = p then some kv.1 else none)

/-- The `for priority in all_priorities` scan of one outer iteration.
`lastStage` models the `last_stage` variable: it is set to the current
priority whenever an expansion happens at that level, and the scan breaks
as soon as `last_stage == priority` holds after a level — that is, as soon
as a level produces at least one expansion (or, in the degenerate case of a
level equal to `priority_cap`, immediately). -/
def scanLevels (cfg : LatexConfig) (tbl : CmdTable) (lastStage : Int) (soup : TexList)
    (ctx : ConvCtx) : List Int → Except String (TexList × ConvCtx × Int)
  | [] => .ok (soup, ctx, lastStage)
  | p :: rest =>
    match procList cfg tbl (keysFor tbl p) 0 ctx soup with
    | .error e => .error e
    | .ok (soup1, ctx1, expanded) =>
      let last1 := if expanded then p else lastStage
      if last1 = p then .ok (soup1, ctx1, last1)
      else scanLevels cfg tbl last1 soup1 ctx1 rest

/-- The `for i in range(nesting_limit)` loop with its `else: raise`: at most
`fuel` scans run; a scan that ends with `last_stage == priority_cap` (no
expansion anywhere) is the convergence sentinel; exhausting the range
raises the nesting error. -/
def outerLoop (cfg : LatexConfig) (tbl : CmdTable) (prios : List Int) :
    Nat → TexList → ConvCtx → Except String (TexList × ConvCtx)
  | 0, _, _ => .error (nestingMsg cfg)
  | fuel + 1, soup, ctx =>
    match scanLevels cfg tbl priority_cap soup ctx prios with
    | .error e => .error e
    | .ok (soup1, ctx1, last) =>
      if last = priority_cap then .ok (soup1, ctx1)
      else outerLoop cfg tbl prios fuel soup1 ctx1

/-! ## Macro-definition discovery (core.py lines 229-245) -/

/-- Model of Python `int(...)` on a stringified group content: optional
sign, at least one digit, surrounding whitespace allowed. -/
def parsePyInt (s : String) : Except String Int :=
  let t := (pyStrip s).data
  let core : List Char → Option Int := fun l =>
    match l with
    | [] => none
    | c :: rest =>
      let (neg, digits) := if c = '-' then (true, rest)
        else if c = '+' then (false, rest) else (false, c :: rest)
      if digits.isEmpty || !digits.all (fun d => d.isDigit) then none
      else some (if neg then -(natOfDigits digits 0 : Int) else (natOfDigits digits 0 : Int))
  match core t with
  | some v => .ok v
  | none => .error (("invalid literal for int with base 10: ") ++ s)

/-- Group lists of the brace-delimited (required) or bracket-delimited
(optional) arguments of a node, preserving order: the two filters of
`soup_to_command`. -/
def argGroups (isBrace : Bool) : TexArgList → List TexList
  | .nil => []
  | .acons b contents rest =>
    if b = isBrace then contents :: argGroups isBrace rest else argGroups isBrace rest

/-- `soup_to_command` (core.py lines 229-237): validates the shape of a
`\newcommand`-like node (exactly two brace groups, at most two bracket
groups) and builds a priority-0 `TextCommand` from the body group, the
declared arity and the optional-argument default.  The source passes the
body group's `contents` where a string is expected; the external library's
content values stringify, modelled here by serializing the group. -/
def soup_to_command (nodeName : String) (isEnv : Bool) (args : TexArgList)
    (contents : TexList) : Except String LatexCmd :=
  let braceArgs := argGroups true args
  let bracketArgs := argGroups false args
  if braceArgs.length ≠ 2 ∨ bracketArgs.length > 2 then
    .error (("Malformed \\newcommand: ") ++ elemStr (.cmd nodeName isEnv args contents))
  else do
    let numArgs ← match bracketArgs.head? with
      | none => .ok (0 : Int)
      | some g =>
        match g with
        | .cons first _ => parsePyInt (elemStr first)
        | .nil => .error ("IndexError: list index out of range")
    let optionalArg ← match bracketArgs.get? 1 with
      | none => .ok (none : Option String)
      | some g =>
        match g with
        | .cons first _ => .ok (some (elemStr first))
        | .nil => .error ("IndexError: list index out of range")
    match braceArgs.get? 1 with
    | some body => .ok (mkTextCommand (tlStr body) numArgs.toNat optionalArg false)
    | none => .error ("IndexError: list index out of range")

mutual
/-- All command nodes with one of the given names, in document (pre-order)
position: the live `find_all` query of the collaborator contract. -/
def findCmdsE (names : List String) : TexElem → List TexElem
  | .cmd n ie a c =>
    (if names.contains n then [.cmd n ie a c] else []) ++ findCmdsA names a ++ findCmdsL names c
  | _ => []

def findCmdsA (names : List String) : TexArgList → List TexElem
  | .nil => []
  | .acons _ contents rest => findCmdsL names contents ++ findCmdsA names rest

def findCmdsL (names : List String) : TexList → List TexElem
  | .nil => []
  | .cons x rest => findCmdsE names x ++ findCmdsL names rest
end

mutual
/-- Remove every command node carrying one of the given names
(`new_command.parent.remove(new_command)` applied to each discovered
definition node, wherever it sits). -/
def removeNamedL (names : List String) : TexList → TexList
  | .nil => .nil
  | .cons x rest =>
    match x with
    | .cmd n ie a c =>
      if names.contains n then removeNamedL names rest
      else .cons (.cmd n ie (removeNamedA names a) (removeNamedL names c)) (removeNamedL names rest)
    | other => .cons other (removeNamedL names rest)

def removeNamedA (names : List String) : TexArgList → TexArgList
  | .nil => .nil
  | .acons b contents rest => .acons b (removeNamedL names contents) (removeNamedA names rest)
end

/-- The pre-loop macro scan of `convert_latex` (lines 242-245): every
`\newcommand` / `\renewcommand` node is translated by `soup_to_command` and
stored in the table under `new_command.name` — the name of the definition
node itself — then removed from the tree. -/
def registerMacroDefs (tbl : CmdTable) (soup : TexList) : Except String (CmdTable × TexList) := do
  let adds := findCmdsL [("newcommand")] soup ++ findCmdsL [("renewcommand")] soup
  let tbl1 ← adds.foldlM (fun acc e =>
    match e with
    | .cmd n ie a c => do
      let cmd ← soup_to_command n ie a c
      Except.ok (dictInsert n cmd acc)
    | _ => Except.ok acc) tbl
  .ok (tbl1, removeNamedL [("newcommand"), ("renewcommand")] soup)

/-- `convert_latex` after the external parse (core.py lines 240-277):
macro discovery, fresh context, then the bounded priority-scan loop. -/
def convert_latex_core (cfg : LatexConfig) (commands : CmdTable) (soup : TexList) :
    Except String (TexList × ConvCtx) := do
  let (tbl, soup1) ← registerMacroDefs commands soup
  outerLoop cfg tbl (all_priorities tbl) cfg.nestingLimit soup1 freshCtx

/-- `convert_latex(context_commands, latext)` with the external
`TexSoup(latext)` parse supplied as a parameter. -/
def convert_latex (cfg : LatexConfig) (parse : String → TexList) (commands : CmdTable)
    (latext : String) : Except String (TexList × ConvCtx) :=
  convert_latex_core cfg commands (parse latext)

/-! ## Text preprocessing (converter.py lines 17-31, 95-98) -/

/-- The ordered `Replacements` table of converter.py (dict insertion order,
applied sequentially by `str.replace`). -/
def replacementsList : List (String × String) :=
  [(("\x7b\\it"), ("\\textit\x7b")),
   (("\x7b\\bf"), ("\\textbf\x7b")),
   (("<<"), ("&laquo;")),
   ((">>"), ("&raquo;")),
   (("----"), ("—")),
   (("---"), ("—")),
   (("--"), ("–")),
   (("\\\\"), ("\n\n")),
   (("\\ "), (" ")),
   (("~"), (" "))]

/-- `for value, replacement in Replacements.items(): latext.replace(...)`. -/
def applyReplacements (s : String) : String :=
  replacementsList.foldl (fun acc kv => pyReplace acc kv.1 kv.2) s

/-- Fueled worker for `commentStrip`: the multiline substitution
`re.sub(r"(^|[^\\])%.*?\n", group1, text)`.  `atStart` marks a position
where `^` matches (string start or just after a newline).  A match consumes
the comment including its terminating newline and keeps the captured
preceding character; without a remaining newline no match can complete and
the rest of the text is kept verbatim. -/
def commentChars (atStart : Bool) : Nat → List Char → List Char
  | 0, l => l
  | _ + 1, [] => []
  | fuel + 1, c :: rest =>
    if atStart && c == '%' then
      match findSplit [('\n')] rest with
      | some (_, post) => commentChars true fuel post
      | none => c :: rest
    else
      match rest with
      | '%' :: rest2 =>
        if c != '\\' then
          match findSplit [('\n')] rest2 with
          | some (_, post) => c :: commentChars true fuel post
          | none => c :: '%' :: rest2
        else c :: commentChars (c == '\n') fuel rest
      | _ => c :: commentChars (c == '\n') fuel rest

/-- Model of `comment_regex.sub("\\1", latext)` (converter.py line 31, 98). -/
def commentStrip (s : String) : String :=
  ⟨commentChars true s.data.length s.data⟩

/-- The full preprocessing of `build_latex` before parsing: literal
substitutions then comment stripping. -/
def preprocess (s : String) : String :=
  commentStrip (applyReplacements s)

/-! ## Builtin command table (converter.py lines 34-75) -/

def builtinCommands : CmdTable :=
  [(("it"), LatexCmd.errorCommand ("textit")),
   (("bf"), LatexCmd.errorCommand ("textbf")),
   (("HUGE"), mkTextCommand ("# #1") 1 none false),
   (("Huge"), mkTextCommand ("# #1") 1 none false),
   (("huge"), mkTextCommand ("## #1") 1 none false),
   (("LARGE"), mkTextCommand ("## #1") 1 none false),
   (("Large"), mkTextCommand ("### #1") 1 none false),
   (("large"), mkTextCommand ("### #1") 1 none false),
   (("textit"), mkTextCommand ("*#1*") 1 none true),
   (("textbf"), mkTextCommand ("**#1**") 1 none true),
   (("texttt"), mkTextCommand ("`#1`") 1 none true),
   (("ldots"), mkTextCommand ("...") 0 none false),
   (("z"), LatexCmd.problemMacroCmd ("%(z)i%(ext)s.") (some 0) (some 1) true ("%(z)i")),
   (("zcirc"), LatexCmd.problemMacroCmd ("%(z)i$^\\circ$%(ext)s.") (some 0) (some 1) true
      ("%(z)i<sup>o</sup>")),
   (("leth"), LatexCmd.problemMacroCmd ("%(leth)s%(ext)s)") (some 1) none true ("%(z)i%(leth)s")),
   (("lett"), LatexCmd.problemMacroCmd ("%(leth)s%(ext)s)") (some 1) none true ("%(z)i%(leth)s")),
   (("lethcirc"), LatexCmd.problemMacroCmd ("%(leth)s$^\\circ$%(ext)s)") (some 1) none true
      ("%(z)i%(leth)s<sup>o</sup>")),
   (("lettcirc"), LatexCmd.problemMacroCmd ("%(leth)s$^\\circ$%(ext)s)") (some 1) none true
      ("%(z)i%(leth)s<sup>o</sup>")),
   (("zncirc"), LatexCmd.problemMacroCmd ("%(z)i.%(leth)s$^\\circ$%(ext)s)") (some 0) (some 1) true
      ("%(z)i%(leth)s<sup>o</sup>")),
   (("zn"), LatexCmd.problemMacroCmd ("%(z)i.%(leth)s%(ext)s)") (some 0) (some 1) true
      ("%(z)i%(leth)s")),
   (("zecirc"), LatexCmd.problemMacroCmd ("%(z)i$^\\circ$%(ext)s.") (some (-1)) (some 1) false ("")),
   (("ze"), LatexCmd.problemMacroCmd ("%(z)i%(ext)s.") (some (-1)) (some 1) false ("")),
   (("sheetid"), LatexCmd.globalConfig ("sheet_id") true),
   (("sheetname"), LatexCmd.globalConfig ("sheet_name") true),
   (("center"), mkTextEnv ("#1") 1 ("text") none false),
   (("centerline"), mkTextCommand ("#1") 1 none false),
   (("tikzpicture"), mkTextEnv ("#1") 1 ("tikz") none false),
   (("itemize"), LatexCmd.itemExtractor ("* %(item)s")),
   (("medskip"), mkTextCommand ("\n\n") 0 none false),
   (("vspace"), mkTextCommand ("") 1 none false),
   (("vspace*"), mkTextCommand ("") 1 none false),
   (("hspace"), mkTextCommand ("") 1 none false),
   (("hspace*"), mkTextCommand ("") 1 none false),
   (("noindent"), mkTextCommand ("") 0 none false),
   (("newpage"), mkTextCommand ("") 0 none false)]

/-! ## Document model (pydantic models of `pyconduit.models.latex`)

Modelled from the spec: the module `pyconduit/models/latex.py` is not part
of the given sources; the spec describes a Document Object as "a typed,
validated projection of a flushed Metadata Node's attribute bag (e.g. a
text object with a markup string, or a problem object with a numbering
string and inclusion flag)" and a Document as "the ordered sequence of
Document Objects, the original raw text, and the two required global
attributes". -/

/-- Modelled from the spec: a typed Document Object (`LatexObject`). -/
inductive LatexObject where
  | textObj (markup : String)
  | problemObj (num : String) (conduitInclude : Bool) (conduitNum : String) (markup : String)
  | otherObj (cls : String) (markup : String)
deriving DecidableEq, Repr

/-- Modelled from the spec: `LatexObject.parse_obj`, the validated
projection of a flushed attribute bag into a typed object by its class
tag. -/
def parse_obj (m : MetadataNodeS) : Except String LatexObject :=
  if m.cls = ("text") then .ok (.textObj (m.text.getD ("")))
  else if m.cls = ("problem") then
    .ok (.problemObj (m.num.getD ("")) (m.conduit_include.getD true)
      (m.conduit_num.getD ("")) (m.text.getD ("")))
  else .ok (.otherObj m.cls (m.text.getD ("")))

/-- Modelled from the spec: the Document (`LatexDocument`) holding the
ordered objects, the original raw text and the two sheet attributes. -/
structure LatexDocument where
  objects : List LatexObject
  orig_doc : String
  sheet_id : Option String
  sheet_name : Option String
deriving DecidableEq, Repr

/-! ## Metadata folding (converter.py lines 79-128) -/

/-- `collect_excess` (converter.py lines 79-90): flush the current node up
to `excess-stacking` times, appending each completed object and re-feeding
excess text into a fresh text node; an exhausted range raises the
excess-stacking error. -/
def collect_excess (cfg : LatexConfig) : Nat → List LatexObject → MetadataNodeS →
    Except String (List LatexObject)
  | 0, _, _ => .error ("Excess stacking limit reached")
  | fuel + 1, objs, current =>
    match current.collect none with
    | (_, some descriptor, excess) =>
      match parse_obj descriptor with
      | .error e => .error e
      | .ok obj =>
        let fresh := mkMeta ("text")
        let fresh1 := if excess ≠ ("") then (fresh.collect (some excess)).1 else fresh
        collect_excess cfg fuel (objs ++ [obj]) fresh1
    | (_, none, _) => .ok objs

/-- The `for node in soup.contents` walk of `build_latex` (lines 110-127),
including the final flush: text, token and math leaves feed the current
node's `collect`; spliced `MetadataNode` boundaries flush via
`collect_excess` and become current; leftover nodes whose contents are
`[""]` are ignored; anything else is unrecognized. -/
def foldSoup (cfg : LatexConfig) : TexList → List LatexObject → MetadataNodeS →
    Except String (List LatexObject)
  | .nil, objs, current => collect_excess cfg cfg.excessStacking objs current
  | .cons node rest, objs, current =>
    match node with
    | .text s =>
      match current.collect (some s) with
      | (_, some descriptor, _) =>
        match parse_obj descriptor with
        | .error e => .error e
        | .ok obj => foldSoup cfg rest (objs ++ [obj]) (mkMeta ("text"))
      | (current1, none, _) => foldSoup cfg rest objs current1
    | .math s =>
      match current.collect (some s) with
      | (_, some descriptor, _) =>
        match parse_obj descriptor with
        | .error e => .error e
        | .ok obj => foldSoup cfg rest (objs ++ [obj]) (mkMeta ("text"))
      | (current1, none, _) => foldSoup cfg rest objs current1
    | .mnode m =>
      match collect_excess cfg cfg.excessStacking objs current with
      | .error e => .error e
      | .ok objs1 => foldSoup cfg rest objs1 m
    | .cmd n ie a (.cons (.text s) .nil) =>
      if s = ("") then foldSoup cfg rest objs current
      else .error (("Unknown node: ") ++ elemStr (.cmd n ie a (.cons (.text s) .nil)) ++
        (" (TexNode)"))
    | other => .error (("Unknown node: ") ++ elemStr other ++ (" (TexNode)"))

/-- `build_latex` after parsing (converter.py lines 99-128): rewrite, check
the two required sheet attributes (Python truthiness: a missing key and an
empty string both fail), then fold the tree into the document. -/
def build_latex_core (cfg : LatexConfig) (soup : TexList) (orig : String) :
    Except String LatexDocument :=
  match convert_latex_core cfg builtinCommands soup with
  | .error e => .error e
  | .ok (soup1, ctx) =>
    let sheetId := (ctx.attrs.lookup ("sheet_id")).getD ("")
    if sheetId = ("") then .error cfg.noSheetIdMsg
    else
      let sheetName := (ctx.attrs.lookup ("sheet_name")).getD ("")
      if sheetName = ("") then .error cfg.noSheetNameMsg
      else
        match foldSoup cfg soup1 [] (mkMeta ("text")) with
        | .error e => .error e
        | .ok objs => .ok ⟨objs, orig, some sheetId, some sheetName⟩

/-- `build_latex(latext)` (converter.py lines 93-128) with the external
parser supplied as a parameter: preprocessing, parsing, then
`build_latex_core`.  `orig_doc` is the raw input before preprocessing. -/
def build_latex (cfg : LatexConfig) (parse : String → TexList) (latext : String) :
    Except String LatexDocument :=
  build_latex_core cfg (parse (preprocess latext)) latext

/-! ## Auxiliary definitions for the verification statements -/

/-- The priority scan as the specification describes it, for comparison
with the implemented `scanLevels`: a level producing zero expansions halts
the scan for this outer iteration; a level that does expand lets the scan
continue to lower priorities. -/
def scanLevelsClaimed (cfg : LatexConfig) (tbl : CmdTable) (lastStage : Int) (soup : TexList)
    (ctx : ConvCtx) : List Int → Except String (TexList × ConvCtx × Int)
  | [] => .ok (soup, ctx, lastStage)
  | p :: rest =>
    match procList cfg tbl (keysFor tbl p) 0 ctx soup with
    | .error e => .error e
    | .ok (soup1, ctx1, expanded) =>
      if expanded then scanLevelsClaimed cfg tbl p soup1 ctx1 rest
      else .ok (soup1, ctx1, lastStage)

/-- `n` scans all succeed without ever reaching the convergence sentinel:
the situation in which the `for i in range(nesting_limit)` loop exhausts
its range. -/
def scansExhaust (cfg : LatexConfig) (tbl : CmdTable) (prios : List Int) :
    Nat → TexList → ConvCtx → Bool
  | 0, _, _ => true
  | fuel + 1, soup, ctx =>
    match scanLevels cfg tbl priority_cap soup ctx prios with
    | .error _ => false
    | .ok (soup1, ctx1, last) =>
      if last = priority_cap then false else scansExhaust cfg tbl prios fuel soup1 ctx1

/-- Every node of the list is a plain text leaf (trees in this state admit
no further expansion at any priority). -/
def allTexts : TexList → Bool
  | .nil => true
  | .cons (.text _) rest => allTexts rest
  | .cons _ _ => false

/-- Projection of a scan result to its serialized tree, used to compare
runs concretely. -/
def scanResultStr : Except String (TexList × ConvCtx × Int) → String
  | .ok (soup, _, _) => tlStr soup
  | .error e => e

/-- A sample external configuration for concrete runs. -/
def sampleCfg : LatexConfig :=
  ⟨'a', [], 10000, 5, 5, ("no sheet id"), ("no sheet name")⟩

/-- A single required (brace) argument group. -/
def braceArg (l : TexList) : TexArgList := .acons true l .nil

/-- Concrete document with one priority-0 invocation followed by one
priority-(-1) environment. -/
def docTwoLevels : TexList :=
  .cons (.cmd ("textbf") false (braceArg (singleTL (.text ("x")))) .nil)
    (singleTL (.cmd ("center") true .nil (singleTL (.text ("y")))))

/-- Concrete document `\item \textbf{x}`: a command outside the table
whose contents hold an expandable invocation, so the mid-rewrite size check
must count the separator of the enclosing `\item` node. -/
def docItemBold : TexList :=
  singleTL (.cmd ("item") false .nil
    (singleTL (.cmd ("textbf") false (braceArg (singleTL (.text ("x")))) .nil)))

/-- Concrete document consisting of a single well-formed macro definition
`\newcommand{\foo}{abc}`. -/
def docNewcommand : TexList :=
  singleTL (.cmd ("newcommand") false
    (.acons true (singleTL (.cmd ("foo") false .nil .nil))
      (.acons true (singleTL (.text ("abc"))) .nil)) .nil)

/-- The command table after the macro scan of `docNewcommand`. -/
def tblAfterNewcommand : CmdTable :=
  dictInsert ("newcommand") (mkTextCommand ("abc") 0 none false) builtinCommands

/-- The trivial parser for command-free text, satisfying the collaborator
contract (`str(parse(s)) = s`). -/
def parseText (s : String) : TexList := singleTL (.text s)

/-- Document tree `\sheetid{a}\sheetname{b}` followed by plain text. -/
def docWithSheets (a b t : String) : TexList :=
  .cons (.cmd ("sheetid") false (braceArg (singleTL (.text a))) .nil)
    (.cons (.cmd ("sheetname") false (braceArg (singleTL (.text b))) .nil)
      (singleTL (.text t)))

/-- Document tree `\sheetid{a}` followed by plain text. -/
def docSheetIdOnly (a t : String) : TexList :=
  .cons (.cmd ("sheetid") false (braceArg (singleTL (.text a))) .nil)
    (singleTL (.text t))

/-- Tail of `docWithSheets` after its first node. -/
def sheetsTail (b t : String) : TexList :=
  .cons (.cmd ("sheetname") false (braceArg (singleTL (.text b))) .nil) (singleTL (.text t))

/-- Tree state after both sheet commands expanded. -/
def docFlat3 (t : String) : TexList :=
  .cons (.text ("")) (.cons (.text ("")) (singleTL (.text t)))

/-- Tree state after a lone `\sheetid` expanded. -/
def docFlat2 (t : String) : TexList :=
  .cons (.text ("")) (singleTL (.text t))

/-- Context after `\sheetid{a}` ran on a fresh conversion. -/
def ctxSheetId (a : String) : ConvCtx :=
  ⟨[(("problem"), 0), (("letter"), 0)], [(("sheet_id"), pyStrip a)]⟩

/-- Context after `\sheetid{a}` and `\sheetname{b}` ran. -/
def ctxSheets (a b : String) : ConvCtx :=
  ⟨[(("problem"), 0), (("letter"), 0)], [(("sheet_id"), pyStrip a), (("sheet_name"), pyStrip b)]⟩

/-- A concrete parser witness: maps the preprocessed text of one document
to a sheet-headed tree and every other text to a single text leaf, in
accordance with the collaborator contract. -/
def parseW (s : String) : TexList :=
  if s = ("sheeted") then docWithSheets ("S1") ("N1") ("body") else singleTL (.text s)

/-! ## Helper lemmas -/

/-- Text leaves pass through a rewrite sweep unchanged. -/
theorem procElem_text (cfg : LatexConfig) (tbl : CmdTable) (keys : List String) (outer : Nat)
    (ctx : ConvCtx) (s : String) :
    procElem cfg tbl keys outer ctx (.text s) = .ok (singleTL (.text s), ctx, false) := by
  rfl

/-- A list of text leaves passes through a rewrite sweep unchanged, with no
expansion recorded. -/
theorem procList_allTexts (cfg : LatexConfig) (tbl : CmdTable) (keys : List String) :
    ∀ (l : TexList) (outer : Nat) (ctx : ConvCtx), allTexts l = true →
      procList cfg tbl keys outer ctx l = .ok (l, ctx, false)
  | .nil, _, _, _ => by rfl
  | .cons (.text s) rest, outer, ctx, h => by
    have h1 : allTexts rest = true := by simpa [allTexts] using h
    simp [procList, procElem_text, procList_allTexts cfg tbl keys rest, h1, tlAppend, singleTL]
  | .cons (.math _) rest, _, _, h => by simp [allTexts] at h
  | .cons (.mnode _) rest, _, _, h => by simp [allTexts] at h
  | .cons (.cmd _ _ _ _) rest, _, _, h => by simp [allTexts] at h

/-- A scan over a fully-textual tree leaves tree, context and `last_stage`
unchanged as long as no priority equals the incoming `last_stage`. -/
theorem scanLevels_allTexts (cfg : LatexConfig) (tbl : CmdTable) (lastStage : Int)
    (soup : TexList) (ctx : ConvCtx) (h : allTexts soup = true) :
    ∀ prios : List Int, (∀ p ∈ prios, lastStage ≠ p) →
      scanLevels cfg tbl lastStage soup ctx prios = .ok (soup, ctx, lastStage) := by
  intro prios
  induction prios with
  | nil => intro _; rfl
  | cons p rest ih =>
    intro hne
    have hp : lastStage ≠ p := hne p (by simp)
    rw [scanLevels, procList_allTexts cfg tbl (keysFor tbl p) soup 0 ctx h]
    simp only [Bool.false_eq_true, if_false]
    rw [if_neg hp]
    exact ih (fun q hq => hne q (by simp [hq]))

/-- The outer loop accepts a fully-textual tree on its first remaining
iteration when no priority equals `priority_cap`. -/
theorem outerLoop_allTexts (cfg : LatexConfig) (tbl : CmdTable) (prios : List Int)
    (fuel : Nat) (soup : TexList) (ctx : ConvCtx) (h : allTexts soup = true)
    (hcap : ∀ p ∈ prios, priority_cap ≠ p) :
    outerLoop cfg tbl prios (fuel + 1) soup ctx = .ok (soup, ctx) := by
  rw [outerLoop, scanLevels_allTexts cfg tbl priority_cap soup ctx h prios hcap]
  simp

/-- An expansion step of the sweep: a matching, recursion-ready invocation
is applied and spliced when the post-expansion tree fits in the limit. -/
theorem procElem_expand (cfg : LatexConfig) (tbl : CmdTable) (keys : List String) (outer : Nat)
    (ctx : ConvCtx) (name : String) (isEnv : Bool) (args : TexArgList) (contents : TexList)
    (c : LatexCmd) (ctx1 : ConvCtx) (repl : TexList)
    (hkeys : keys.contains name = true) (hlook : dictLookup tbl name = some c)
    (hready : recursionReady c tbl args contents = true)
    (happly : applyCmd cfg c ctx name contents (argDataOf args) = .ok (ctx1, repl))
    (hfit : ¬(outer + (tlStr repl).length > cfg.charLimit)) :
    procElem cfg tbl keys outer ctx (.cmd name isEnv args contents) = .ok (repl, ctx1, true) := by
  rw [procElem, hkeys]
  simp only [if_true]
  rw [hlook]
  simp only [Option.filter, hready, if_true]
  rw [happly]
  simp only [if_neg hfit]

/-- Composition of successful sweep steps over a child list. -/
theorem procList_cons_ok (cfg : LatexConfig) (tbl : CmdTable) (keys : List String) (outer : Nat)
    (ctx : ConvCtx) (x : TexElem) (rest : TexList) (xs1 : TexList) (ctx1 : ConvCtx) (b1 : Bool)
    (rest1 : TexList) (ctx2 : ConvCtx) (b2 : Bool)
    (hx : procElem cfg tbl keys (outer + (tlStr rest).length) ctx x = .ok (xs1, ctx1, b1))
    (hrest : procList cfg tbl keys (outer + (tlStr xs1).length) ctx1 rest = .ok (rest1, ctx2, b2)) :
    procList cfg tbl keys outer ctx (.cons x rest) = .ok (tlAppend xs1 rest1, ctx2, b1 || b2) := by
  simp only [procList, hx, hrest]

/-- One level of the priority scan: the scan breaks exactly when the level
expanded (the `last_stage == priority` condition of the source). -/
theorem scanLevels_step (cfg : LatexConfig) (tbl : CmdTable) (lastStage : Int) (soup : TexList)
    (ctx : ConvCtx) (p : Int) (rest : List Int) (soup1 : TexList) (ctx1 : ConvCtx) (b : Bool)
    (hproc : procList cfg tbl (keysFor tbl p) 0 ctx soup = .ok (soup1, ctx1, b))
    (hne : lastStage ≠ p) :
    scanLevels cfg tbl lastStage soup ctx (p :: rest) =
      if b then .ok (soup1, ctx1, p) else scanLevels cfg tbl lastStage soup1 ctx1 rest := by
  rw [scanLevels, hproc]
  cases b with
  | true => simp
  | false => simp [hne]

/-- A non-converged scan sends the outer loop into its next iteration on
the scanned state. -/
theorem outerLoop_step (cfg : LatexConfig) (tbl : CmdTable) (prios : List Int) (fuel : Nat)
    (soup : TexList) (ctx : ConvCtx) (soup1 : TexList) (ctx1 : ConvCtx) (last : Int)
    (hscan : scanLevels cfg tbl priority_cap soup ctx prios = .ok (soup1, ctx1, last))
    (hne : last ≠ priority_cap) :
    outerLoop cfg tbl prios (fuel + 1) soup ctx = outerLoop cfg tbl prios fuel soup1 ctx1 := by
  rw [outerLoop, hscan]
  simp [hne]

/-- A scan ending at the sentinel `priority_cap` concludes the loop. -/
theorem outerLoop_done (cfg : LatexConfig) (tbl : CmdTable) (prios : List Int) (fuel : Nat)
    (soup : TexList) (ctx : ConvCtx) (soup1 : TexList) (ctx1 : ConvCtx)
    (hscan : scanLevels cfg tbl priority_cap soup ctx prios = .ok (soup1, ctx1, priority_cap)) :
    outerLoop cfg tbl prios (fuel + 1) soup ctx = .ok (soup1, ctx1) := by
  rw [outerLoop, hscan]
  simp

/-- Full rewrite of `\sheetid{a}\sheetname{b}` followed by plain text:
both global-config commands expand in the first outer iteration (their
priority level 0 then breaks the scan), the second iteration converges, and
the context carries the two stripped attributes. -/
theorem convert_sheets (cfg : LatexConfig) (a b t : String)
    (hn : 2 ≤ cfg.nestingLimit)
    (hs1 : (tlStr (sheetsTail b t)).length ≤ cfg.charLimit)
    (hs2 : (tlStr (singleTL (.text t))).length ≤ cfg.charLimit) :
    convert_latex_core cfg builtinCommands (docWithSheets a b t) =
      .ok (docFlat3 t, ctxSheets a b) := by
  obtain ⟨m, hm⟩ : ∃ m, cfg.nestingLimit = m + 2 := ⟨cfg.nestingLimit - 2, by omega⟩
  have h0 : (tlStr (singleTL (.text ("")))).length = 0 := rfl
  have hx1 : procElem cfg builtinCommands (keysFor builtinCommands 0)
      (0 + (tlStr (sheetsTail b t)).length) freshCtx
      (.cmd ("sheetid") false (braceArg (singleTL (.text a))) .nil) =
      .ok (singleTL (.text ("")), ctxSheetId a, true) :=
    procElem_expand cfg builtinCommands (keysFor builtinCommands 0)
      (0 + (tlStr (sheetsTail b t)).length) freshCtx ("sheetid") false
      (braceArg (singleTL (.text a))) .nil (.globalConfig ("sheet_id") true)
      (ctxSheetId a) (singleTL (.text ("")))
      (by rfl) (by rfl) (by rfl) (by rfl) (by simp only [h0]; omega)
  have hx2 : procElem cfg builtinCommands (keysFor builtinCommands 0)
      ((0 + (tlStr (singleTL (.text ("")))).length) + (tlStr (singleTL (.text t))).length)
      (ctxSheetId a)
      (.cmd ("sheetname") false (braceArg (singleTL (.text b))) .nil) =
      .ok (singleTL (.text ("")), ctxSheets a b, true) :=
    procElem_expand cfg builtinCommands (keysFor builtinCommands 0)
      ((0 + (tlStr (singleTL (.text ("")))).length) + (tlStr (singleTL (.text t))).length)
      (ctxSheetId a) ("sheetname") false
      (braceArg (singleTL (.text b))) .nil (.globalConfig ("sheet_name") true)
      (ctxSheets a b) (singleTL (.text ("")))
      (by rfl) (by rfl) (by rfl) (by rfl) (by simp only [h0]; omega)
  have hrest2 : procList cfg builtinCommands (keysFor builtinCommands 0)
      ((0 + (tlStr (singleTL (.text ("")))).length) + (tlStr (singleTL (.text ("")))).length)
      (ctxSheets a b) (singleTL (.text t)) =
      .ok (singleTL (.text t), ctxSheets a b, false) :=
    procList_allTexts cfg builtinCommands (keysFor builtinCommands 0) (singleTL (.text t)) _ _
      (by rfl)
  have hlist2 : procList cfg builtinCommands (keysFor builtinCommands 0)
      (0 + (tlStr (singleTL (.text ("")))).length) (ctxSheetId a) (sheetsTail b t) =
      .ok (tlAppend (singleTL (.text (""))) (singleTL (.text t)), ctxSheets a b, true) := by
    have h := procList_cons_ok cfg builtinCommands (keysFor builtinCommands 0)
      (0 + (tlStr (singleTL (.text ("")))).length) (ctxSheetId a)
      (.cmd ("sheetname") false (braceArg (singleTL (.text b))) .nil) (singleTL (.text t))
      (singleTL (.text (""))) (ctxSheets a b) true
      (singleTL (.text t)) (ctxSheets a b) false hx2 hrest2
    simpa using h
  have hlist1 : procList cfg builtinCommands (keysFor builtinCommands 0) 0 freshCtx
      (docWithSheets a b t) = .ok (docFlat3 t, ctxSheets a b, true) := by
    have h := procList_cons_ok cfg builtinCommands (keysFor builtinCommands 0) 0 freshCtx
      (.cmd ("sheetid") false (braceArg (singleTL (.text a))) .nil) (sheetsTail b t)
      (singleTL (.text (""))) (ctxSheetId a) true
      (tlAppend (singleTL (.text (""))) (singleTL (.text t))) (ctxSheets a b) true hx1 hlist2
    simpa [tlAppend, singleTL, docFlat3] using h
  have hscan1 : scanLevels cfg builtinCommands priority_cap (docWithSheets a b t) freshCtx
      (all_priorities builtinCommands) = .ok (docFlat3 t, ctxSheets a b, 0) := by
    have h := scanLevels_step cfg builtinCommands priority_cap (docWithSheets a b t) freshCtx
      0 [-1, -333] (docFlat3 t) (ctxSheets a b) true hlist1 (by decide)
    simpa using h
  have hscan2 : scanLevels cfg builtinCommands priority_cap (docFlat3 t) (ctxSheets a b)
      (all_priorities builtinCommands) = .ok (docFlat3 t, ctxSheets a b, priority_cap) :=
    scanLevels_allTexts cfg builtinCommands priority_cap (docFlat3 t) (ctxSheets a b)
      (by rfl) (all_priorities builtinCommands) (by decide)
  unfold convert_latex_core
  rw [show registerMacroDefs builtinCommands (docWithSheets a b t) =
    .ok (builtinCommands, docWithSheets a b t) from rfl]
  show outerLoop cfg builtinCommands (all_priorities builtinCommands) cfg.nestingLimit
    (docWithSheets a b t) freshCtx = .ok (docFlat3 t, ctxSheets a b)
  rw [hm, outerLoop_step cfg builtinCommands (all_priorities builtinCommands) (m + 1)
    (docWithSheets a b t) freshCtx (docFlat3 t) (ctxSheets a b) 0 hscan1 (by decide)]
  exact outerLoop_done cfg builtinCommands (all_priorities builtinCommands) m
    (docFlat3 t) (ctxSheets a b) (docFlat3 t) (ctxSheets a b) hscan2

/-- Full rewrite of a lone `\sheetid{a}` followed by plain text. -/
theorem convert_sheetid (cfg : LatexConfig) (a t : String)
    (hn : 2 ≤ cfg.nestingLimit)
    (hst : (tlStr (singleTL (.text t))).length ≤ cfg.charLimit) :
    convert_latex_core cfg builtinCommands (docSheetIdOnly a t) =
      .ok (docFlat2 t, ctxSheetId a) := by
  obtain ⟨m, hm⟩ : ∃ m, cfg.nestingLimit = m + 2 := ⟨cfg.nestingLimit - 2, by omega⟩
  have h0 : (tlStr (singleTL (.text ("")))).length = 0 := rfl
  have hx1 : procElem cfg builtinCommands (keysFor builtinCommands 0)
      (0 + (tlStr (singleTL (.text t))).length) freshCtx
      (.cmd ("sheetid") false (braceArg (singleTL (.text a))) .nil) =
      .ok (singleTL (.text ("")), ctxSheetId a, true) :=
    procElem_expand cfg builtinCommands (keysFor builtinCommands 0)
      (0 + (tlStr (singleTL (.text t))).length) freshCtx ("sheetid") false
      (braceArg (singleTL (.text a))) .nil (.globalConfig ("sheet_id") true)
      (ctxSheetId a) (singleTL (.text ("")))
      (by rfl) (by rfl) (by rfl) (by rfl) (by simp only [h0]; omega)
  have hrest : procList cfg builtinCommands (keysFor builtinCommands 0)
      (0 + (tlStr (singleTL (.text ("")))).length) (ctxSheetId a) (singleTL (.text t)) =
      .ok (singleTL (.text t), ctxSheetId a, false) :=
    procList_allTexts cfg builtinCommands (keysFor builtinCommands 0) (singleTL (.text t)) _ _
      (by rfl)
  have hlist : procList cfg builtinCommands (keysFor builtinCommands 0) 0 freshCtx
      (docSheetIdOnly a t) = .ok (docFlat2 t, ctxSheetId a, true) := by
    have h := procList_cons_ok cfg builtinCommands (keysFor builtinCommands 0) 0 freshCtx
      (.cmd ("sheetid") false (braceArg (singleTL (.text a))) .nil) (singleTL (.text t))
      (singleTL (.text (""))) (ctxSheetId a) true
      (singleTL (.text t)) (ctxSheetId a) false hx1 hrest
    simpa [tlAppend, singleTL, docFlat2] using h
  have hscan1 : scanLevels cfg builtinCommands priority_cap (docSheetIdOnly a t) freshCtx
      (all_priorities builtinCommands) = .ok (docFlat2 t, ctxSheetId a, 0) := by
    have h := scanLevels_step cfg builtinCommands priority_cap (docSheetIdOnly a t) freshCtx
      0 [-1, -333] (docFlat2 t) (ctxSheetId a) true hlist (by decide)
    simpa using h
  have hscan2 : scanLevels cfg builtinCommands priority_cap (docFlat2 t) (ctxSheetId a)
      (all_priorities builtinCommands) = .ok (docFlat2 t, ctxSheetId a, priority_cap) :=
    scanLevels_allTexts cfg builtinCommands priority_cap (docFlat2 t) (ctxSheetId a)
      (by rfl) (all_priorities builtinCommands) (by decide)
  unfold convert_latex_core
  rw [show registerMacroDefs builtinCommands (docSheetIdOnly a t) =
    .ok (builtinCommands, docSheetIdOnly a t) from rfl]
  show outerLoop cfg builtinCommands (all_priorities builtinCommands) cfg.nestingLimit
    (docSheetIdOnly a t) freshCtx = .ok (docFlat2 t, ctxSheetId a)
  rw [hm, outerLoop_step cfg builtinCommands (all_priorities builtinCommands) (m + 1)
    (docSheetIdOnly a t) freshCtx (docFlat2 t) (ctxSheetId a) 0 hscan1 (by decide)]
  exact outerLoop_done cfg builtinCommands (all_priorities builtinCommands) m
    (docFlat2 t) (ctxSheetId a) (docFlat2 t) (ctxSheetId a) hscan2

/-- Folding a rewritten tree of two empty texts and one nonempty text free
of paragraph breaks yields exactly one text object carrying that text. -/
theorem foldSoup_docFlat3 (cfg : LatexConfig) (t : String)
    (hes : 2 ≤ cfg.excessStacking) (ht : t ≠ (""))
    (hnn : findSplit dblNewline t.data = none) :
    foldSoup cfg (docFlat3 t) [] (mkMeta ("text")) = .ok [.textObj t] := by
  obtain ⟨k, hk⟩ : ∃ k, cfg.excessStacking = k + 2 := ⟨cfg.excessStacking - 2, by omega⟩
  have hbt : (t != ("")) = true := by simpa [bne_iff_ne] using ht
  show collect_excess cfg cfg.excessStacking [] ⟨("text"), true, some t, none, none, none⟩ =
    .ok [.textObj t]
  rw [hk, collect_excess]
  simp only [MetadataNodeS.collect, MetadataNodeS.finalize, Option.isNone_some, Bool.and_false,
    Bool.false_eq_true, if_false, Option.getD_some, hbt, hnn, Bool.not_true, Bool.false_or,
    if_true]
  rfl

/-! ## Claim C4 -/

/-- C4: `TextCommand.apply` with content `"#1-#2"` and declared arity 2 and
no optional argument rejects one and three arguments with the
invalid-argument-count error, and maps exactly `("a", "b")` to `"a-b"`.
The content is stored through the `__init__` transformation `hashSub`. -/
theorem claim4_arity (x y z : String) :
    TextCommand_apply (hashSub ("#1-#2")) 2 none false ("cmd") [x] =
        .error (arityMsg ("cmd") 2 1) ∧
      TextCommand_apply (hashSub ("#1-#2")) 2 none false ("cmd") [x, y, z] =
        .error (arityMsg ("cmd") 2 3) ∧
      TextCommand_apply (hashSub ("#1-#2")) 2 none false ("cmd") [("a"), ("b")] =
        .ok ("a-b") := by
  refine ⟨?_, ?_, by rfl⟩
  · rw [TextCommand_apply, if_pos]
    · rfl
    · simp
  · rw [TextCommand_apply, if_pos]
    · rfl
    · simp

/-- Witness for C4 at concrete arguments. -/
theorem claim4_arity_witness :
    TextCommand_apply (hashSub ("#1-#2")) 2 none false ("cmd") [("p")] =
        .error (arityMsg ("cmd") 2 1) ∧
      TextCommand_apply (hashSub ("#1-#2")) 2 none false ("cmd") [("p"), ("q"), ("r")] =
        .error (arityMsg ("cmd") 2 3) ∧
      TextCommand_apply (hashSub ("#1-#2")) 2 none false ("cmd") [("a"), ("b")] =
        .ok ("a-b") :=
  claim4_arity ("p") ("q") ("r")

/-! ## Claim C5 -/

/-- C5: flushing a text-collecting metadata node whose buffer is
`"first\n\nsecond"` splits at the first double newline: the finalized
descriptor's text is `"first"` and the excess is `"second"`. -/
theorem claim5_paragraph_split :
    (mkMetaWithText ("text") ("first\n\nsecond")).collect none =
      (mkMetaWithText ("text") ("first"), some (mkMetaWithText ("text") ("first")),
        ("second")) := by
  rfl

/-! ## Claim C2 -/

/-- C2 (code bug): for the well-formed definition `\newcommand{\foo}{abc}`
the source stores the created priority-0 `TextCommand` under
`new_command.name` — the name of the `\newcommand` node itself — so the
command table maps `"newcommand"`, not the macro name `"foo"` given in the
first brace group, although the definition node is indeed removed from the
tree.  The first brace group is never read by `soup_to_command`. -/
theorem claim2_newcommand_key_bug :
    registerMacroDefs builtinCommands docNewcommand = .ok (tblAfterNewcommand, .nil) ∧
      dictLookup tblAfterNewcommand ("foo") = none ∧
      dictLookup tblAfterNewcommand ("newcommand") =
        some (mkTextCommand ("abc") 0 none false) := by
  refine ⟨by rfl, by rfl, by rfl⟩

/-! ## Claim C1 -/

/-- C1 (counterexample): on a document holding one priority-0 invocation
and one priority-(-1) environment, the implemented scan and the scan the
claim describes produce different trees: the code breaks the priority scan
after the level that expanded (leaving the environment untouched for this
outer iteration), while the claimed rule would continue past an expanding
level and halt only at a level with zero expansions. -/
theorem claim1_counterexample :
    scanResultStr (scanLevels sampleCfg builtinCommands priority_cap docTwoLevels freshCtx
        (all_priorities builtinCommands)) ≠
      scanResultStr (scanLevelsClaimed sampleCfg builtinCommands priority_cap docTwoLevels freshCtx
        (all_priorities builtinCommands)) := by
  decide

/-- C1 (amended): whenever a priority level produces at least one
expansion, the scan over lower priority levels for the current outer
iteration halts early (the code's `last_stage == priority` break), while a
level with zero expansions lets the scan continue to lower priorities; and
an outer iteration that ended without reaching the convergence sentinel
restarts the next iteration's scan from the top priority. -/
theorem claim1_scan_break :
    (∀ (cfg : LatexConfig) (tbl : CmdTable) (lastStage : Int) (soup : TexList) (ctx : ConvCtx)
        (p : Int) (rest : List Int) (soup1 : TexList) (ctx1 : ConvCtx) (b : Bool),
      procList cfg tbl (keysFor tbl p) 0 ctx soup = .ok (soup1, ctx1, b) →
      lastStage ≠ p →
      scanLevels cfg tbl lastStage soup ctx (p :: rest) =
        if b then .ok (soup1, ctx1, p) else scanLevels cfg tbl lastStage soup1 ctx1 rest) ∧
    (∀ (cfg : LatexConfig) (tbl : CmdTable) (prios : List Int) (fuel : Nat) (soup : TexList)
        (ctx : ConvCtx) (soup1 : TexList) (ctx1 : ConvCtx) (last : Int),
      scanLevels cfg tbl priority_cap soup ctx prios = .ok (soup1, ctx1, last) →
      last ≠ priority_cap →
      outerLoop cfg tbl prios (fuel + 1) soup ctx = outerLoop cfg tbl prios fuel soup1 ctx1) := by
  constructor
  · intro cfg tbl lastStage soup ctx p rest soup1 ctx1 b hproc hne
    rw [scanLevels, hproc]
    cases b with
    | true => simp
    | false => simp [hne]
  · intro cfg tbl prios fuel soup ctx soup1 ctx1 last hscan hne
    rw [outerLoop, hscan]
    simp [hne]

/-- Witness for C1 (amended) on the concrete two-level document: level 0
expands the bold command and the scan halts with `last_stage = 0`, leaving
the environment unexpanded. -/
theorem claim1_scan_break_witness :
    scanLevels sampleCfg builtinCommands priority_cap docTwoLevels freshCtx
        (all_priorities builtinCommands) =
      .ok (.cons (.text ("**x**"))
          (singleTL (.cmd ("center") true .nil (singleTL (.text ("y"))))), freshCtx, 0) := by
  have h := claim1_scan_break.1 sampleCfg builtinCommands priority_cap docTwoLevels freshCtx
    0 [-1, -333]
    (.cons (.text ("**x**")) (singleTL (.cmd ("center") true .nil (singleTL (.text ("y"))))))
    freshCtx true (by rfl) (by decide)
  simpa using h

/-! ## Claim C8 -/

/-- When every scan of the remaining budget runs without reaching the
convergence sentinel, the outer loop exhausts its range and raises the
nesting error (`for ... else: raise`). -/
theorem outerLoop_exhaust (cfg : LatexConfig) (tbl : CmdTable) (prios : List Int) :
    ∀ (fuel : Nat) (soup : TexList) (ctx : ConvCtx),
      scansExhaust cfg tbl prios fuel soup ctx = true →
      outerLoop cfg tbl prios fuel soup ctx = .error (nestingMsg cfg) := by
  intro fuel
  induction fuel with
  | zero => intro soup ctx _; rfl
  | succ n ih =>
    intro soup ctx h
    rw [scansExhaust] at h
    rw [outerLoop]
    cases hscan : scanLevels cfg tbl priority_cap soup ctx prios with
    | error e => rw [hscan] at h; simp at h
    | ok r =>
      obtain ⟨soup1, ctx1, last⟩ := r
      rw [hscan] at h
      by_cases hlast : last = priority_cap
      · simp [hlast] at h
      · simp only [if_neg hlast] at h
        simp [hlast, ih soup1 ctx1 h]

/-- C8: the rewrite loop of `convert_latex` performs at most
`command-nesting-limit` outer iterations: when the macro scan succeeds and
`nesting_limit` consecutive scans all fail to reach the convergence
sentinel, the conversion stops with the nesting-limit error instead of
running any further iteration. -/
theorem claim8_nesting_limit (cfg : LatexConfig) (commands : CmdTable) (soup : TexList)
    (tbl : CmdTable) (soup1 : TexList)
    (hreg : registerMacroDefs commands soup = .ok (tbl, soup1))
    (hex : scansExhaust cfg tbl (all_priorities tbl) cfg.nestingLimit soup1 freshCtx = true) :
    convert_latex_core cfg commands soup = .error (nestingMsg cfg) := by
  unfold convert_latex_core
  rw [hreg]
  exact outerLoop_exhaust cfg tbl (all_priorities tbl) cfg.nestingLimit soup1 freshCtx hex

/-- Witness for C8: under a nesting limit of 1, the two-level document
makes one expansion in its single allowed iteration and the conversion
fails with the nesting error. -/
theorem claim8_nesting_limit_witness :
    convert_latex_core ({sampleCfg with nestingLimit := 1}) builtinCommands docTwoLevels =
      .error (nestingMsg ({sampleCfg with nestingLimit := 1})) :=
  claim8_nesting_limit ({sampleCfg with nestingLimit := 1}) builtinCommands docTwoLevels
    builtinCommands docTwoLevels (by rfl) (by rfl)

/-! ## Claim C9 -/

/-- C9: directly after every successful expansion the serialized length of
the whole tree (surrounding length plus replacement length) is compared
against the character limit, and exceeding it is an immediate size-limit
error, which propagates unchanged through the sweep, the priority scan and
the outer loop. -/
theorem claim9_size_check :
    (∀ (cfg : LatexConfig) (tbl : CmdTable) (keys : List String) (outer : Nat) (ctx : ConvCtx)
        (name : String) (isEnv : Bool) (args : TexArgList) (contents : TexList)
        (c : LatexCmd) (ctx1 : ConvCtx) (repl : TexList),
      keys.contains name = true →
      dictLookup tbl name = some c →
      recursionReady c tbl args contents = true →
      applyCmd cfg c ctx name contents (argDataOf args) = .ok (ctx1, repl) →
      procElem cfg tbl keys outer ctx (.cmd name isEnv args contents) =
        if outer + (tlStr repl).length > cfg.charLimit then
          .error (sizeMsg cfg (outer + (tlStr repl).length))
        else .ok (repl, ctx1, true)) ∧
    (∀ (cfg : LatexConfig) (tbl : CmdTable) (keys : List String) (outer : Nat) (ctx : ConvCtx)
        (x : TexElem) (rest : TexList) (e : String),
      procElem cfg tbl keys (outer + (tlStr rest).length) ctx x = .error e →
      procList cfg tbl keys outer ctx (.cons x rest) = .error e) ∧
    (∀ (cfg : LatexConfig) (tbl : CmdTable) (lastStage : Int) (soup : TexList) (ctx : ConvCtx)
        (p : Int) (rest : List Int) (e : String),
      procList cfg tbl (keysFor tbl p) 0 ctx soup = .error e →
      scanLevels cfg tbl lastStage soup ctx (p :: rest) = .error e) ∧
    (∀ (cfg : LatexConfig) (tbl : CmdTable) (prios : List Int) (fuel : Nat) (soup : TexList)
        (ctx : ConvCtx) (e : String),
      scanLevels cfg tbl priority_cap soup ctx prios = .error e →
      outerLoop cfg tbl prios (fuel + 1) soup ctx = .error e) := by
  refine ⟨?_, ?_, ?_, ?_⟩
  · intro cfg tbl keys outer ctx name isEnv args contents c ctx1 repl hkeys hlook hready happly
    rw [procElem, hkeys]
    simp only [if_true]
    rw [hlook]
    simp only [Option.filter, hready, if_true]
    rw [happly]
  · intro cfg tbl keys outer ctx x rest e helem
    rw [procList, helem]
  · intro cfg tbl lastStage soup ctx p rest e hproc
    rw [scanLevels, hproc]
  · intro cfg tbl prios fuel soup ctx e hscan
    rw [outerLoop, hscan]

/-- Witness for C9: with a character limit of 3, expanding `\textbf{x}` to
the five-character `**x**` fails at once with the size error, also through
the whole conversion; and for an expansion nested inside an untabled
`\item` node, the check counts the full serialization of the enclosing
tree — `\item **x**` has 11 characters, so the conversion errors at limit
10 and converges at limit 11. -/
theorem claim9_size_check_witness :
    procElem ({sampleCfg with charLimit := 3}) builtinCommands
        (keysFor builtinCommands 0) 0 freshCtx
        (.cmd ("textbf") false (braceArg (singleTL (.text ("x")))) .nil) =
      .error (sizeMsg ({sampleCfg with charLimit := 3}) 5) ∧
    convert_latex_core ({sampleCfg with charLimit := 3}) builtinCommands
        (singleTL (.cmd ("textbf") false (braceArg (singleTL (.text ("x")))) .nil)) =
      .error (sizeMsg ({sampleCfg with charLimit := 3}) 5) ∧
    convert_latex_core ({sampleCfg with charLimit := 10}) builtinCommands docItemBold =
      .error (sizeMsg ({sampleCfg with charLimit := 10}) 11) ∧
    convert_latex_core ({sampleCfg with charLimit := 11}) builtinCommands docItemBold =
      .ok (singleTL (.cmd ("item") false .nil (singleTL (.text ("**x**")))), freshCtx) := by
  refine ⟨?_, by rfl, by rfl, by rfl⟩
  have h := claim9_size_check.1 ({sampleCfg with charLimit := 3}) builtinCommands
    (keysFor builtinCommands 0) 0 freshCtx ("textbf") false
    (braceArg (singleTL (.text ("x")))) .nil
    (mkTextCommand ("**#1**") 1 none true) freshCtx (singleTL (.text ("**x**")))
    (by rfl) (by rfl) (by rfl) (by rfl)
  simpa using h

/-! ## Claim C6 -/

/-- C6: applying the problem macro built as
`ProblemMacro(problem=1, letter=0, fmt="%(z)i%(ext)s.")` with no extra
arguments to a fresh context sets the problem counter to 1 and returns a
problem metadata marker whose numbering string is `"1."` (for every
external configuration — the letter computation does not reach this format
string); and `update_iterator` adds a positive value to a counter while a
non-positive value is assigned, resetting it. -/
theorem claim6_problem_numbering :
    (∀ cfg : LatexConfig,
      ProblemMacro_apply cfg ("%(z)i%(ext)s.") (some 0) (some 1) true ("") freshCtx [] =
        .ok (⟨[(("problem"), 1), (("letter"), 0)], []⟩,
          singleTL (.mnode ⟨("problem"), true, none, some ("1."), some true, some ("")⟩))) ∧
    (∀ (ctx : ConvCtx) (name : String) (v : Int), 0 < v →
      update_iterator ctx name (some v) =
        {ctx with iterators := assocSetI name (itGet ctx name + v) ctx.iterators}) ∧
    (∀ (ctx : ConvCtx) (name : String) (v : Int), v ≤ 0 →
      update_iterator ctx name (some v) =
        {ctx with iterators := assocSetI name v ctx.iterators}) := by
  refine ⟨fun cfg => by rfl, ?_, ?_⟩
  · intro ctx name v hv
    rw [update_iterator, if_pos hv]
  · intro ctx name v hv
    rw [update_iterator, if_neg (by omega)]

/-- Witness for C6 at the sample configuration and concrete iterator
updates. -/
theorem claim6_problem_numbering_witness :
    ProblemMacro_apply sampleCfg ("%(z)i%(ext)s.") (some 0) (some 1) true ("") freshCtx [] =
        .ok (⟨[(("problem"), 1), (("letter"), 0)], []⟩,
          singleTL (.mnode ⟨("problem"), true, none, some ("1."), some true, some ("")⟩)) ∧
      update_iterator freshCtx ("problem") (some 2) =
        ⟨[(("problem"), 2), (("letter"), 0)], []⟩ ∧
      update_iterator freshCtx ("letter") (some (-1)) =
        ⟨[(("problem"), 0), (("letter"), -1)], []⟩ := by
  refine ⟨claim6_problem_numbering.1 sampleCfg, ?_, ?_⟩
  · rw [claim6_problem_numbering.2.1 freshCtx ("problem") 2 (by decide)]
    rfl
  · rw [claim6_problem_numbering.2.2 freshCtx ("letter") (-1) (by decide)]
    rfl

/-! ## Claim C7 -/

/-- C7: when the rewrite succeeds but no `sheet_id` attribute was ever
written into the shared context, `build_latex` fails with the configured
missing-sheet-id message — for every resulting tree, so the check precedes
any folding of document objects; likewise for a missing `sheet_name` once
`sheet_id` is present and non-empty. -/
theorem claim7_missing_sheet :
    (∀ (cfg : LatexConfig) (soup : TexList) (orig : String) (soup1 : TexList) (ctx : ConvCtx),
      convert_latex_core cfg builtinCommands soup = .ok (soup1, ctx) →
      ctx.attrs.lookup ("sheet_id") = none →
      build_latex_core cfg soup orig = .error cfg.noSheetIdMsg) ∧
    (∀ (cfg : LatexConfig) (soup : TexList) (orig : String) (soup1 : TexList) (ctx : ConvCtx)
        (v : String),
      convert_latex_core cfg builtinCommands soup = .ok (soup1, ctx) →
      ctx.attrs.lookup ("sheet_id") = some v → v ≠ ("") →
      ctx.attrs.lookup ("sheet_name") = none →
      build_latex_core cfg soup orig = .error cfg.noSheetNameMsg) := by
  constructor
  · intro cfg soup orig soup1 ctx hconv hid
    rw [build_latex_core, hconv]
    simp [hid]
  · intro cfg soup orig soup1 ctx v hconv hid hv hname
    rw [build_latex_core, hconv]
    simp [hid, hname, hv]

/-- Witness for C7: a document with no `\sheetid` fails with the
missing-sheet-id message; one with `\sheetid` but no `\sheetname` fails
with the missing-sheet-name message. -/
theorem claim7_missing_sheet_witness :
    build_latex_core sampleCfg (singleTL (.text ("hi"))) ("orig") =
        .error sampleCfg.noSheetIdMsg ∧
      build_latex_core sampleCfg (docSheetIdOnly ("S1") ("body")) ("orig") =
        .error sampleCfg.noSheetNameMsg := by
  constructor
  · exact claim7_missing_sheet.1 sampleCfg (singleTL (.text ("hi"))) ("orig")
      (singleTL (.text ("hi"))) freshCtx (by rfl) (by rfl)
  · exact claim7_missing_sheet.2 sampleCfg (docSheetIdOnly ("S1") ("body")) ("orig")
      (.cons (.text ("")) (singleTL (.text ("body"))))
      ⟨[(("problem"), 0), (("letter"), 0)], [(("sheet_id"), ("S1"))]⟩ ("S1")
      (by rfl) (by rfl) (by decide) (by rfl)

/-! ## Claim C3 -/

/-- C3 (counterexample): a document with no recognized commands and no
macro definitions does not convert successfully — `build_latex` fails with
the missing-sheet-id error, since no `\sheetid` command ever set the
required attribute. -/
theorem claim3_counterexample :
    build_latex sampleCfg parseText ("hello world") = .error sampleCfg.noSheetIdMsg := by
  rfl

/-- C3 (amended): a document with no recognized commands and no macro
definitions fails `build_latex` with the missing-sheet-id error; when the
same kind of text is preceded by `\sheetid` and `\sheetname` invocations
with non-blank arguments, and the text is nonempty, free of paragraph
breaks and within the character limit, the conversion succeeds and its
object list is exactly one text-class object whose markup equals that
(comment-stripped, literal-substituted) text. -/
theorem claim3_roundtrip (cfg : LatexConfig) (parse : String → TexList) (s1 s2 a b t : String)
    (hn : 2 ≤ cfg.nestingLimit) (hes : 2 ≤ cfg.excessStacking)
    (h1 : parse (preprocess s1) = singleTL (.text (preprocess s1)))
    (h2 : parse (preprocess s2) = docWithSheets a b t)
    (ha : pyStrip a ≠ ("")) (hb : pyStrip b ≠ (""))
    (ht : t ≠ ("")) (hnn : findSplit dblNewline t.data = none)
    (hs1 : (tlStr (sheetsTail b t)).length ≤ cfg.charLimit)
    (hs2 : (tlStr (singleTL (.text t))).length ≤ cfg.charLimit) :
    build_latex cfg parse s1 = .error cfg.noSheetIdMsg ∧
    build_latex cfg parse s2 =
      .ok ⟨[.textObj t], s2, some (pyStrip a), some (pyStrip b)⟩ := by
  constructor
  · unfold build_latex
    rw [h1]
    have hconv1 : convert_latex_core cfg builtinCommands
        (singleTL (.text (preprocess s1))) =
        .ok (singleTL (.text (preprocess s1)), freshCtx) := by
      obtain ⟨m, hm⟩ : ∃ m, cfg.nestingLimit = m + 1 := ⟨cfg.nestingLimit - 1, by omega⟩
      unfold convert_latex_core
      rw [show registerMacroDefs builtinCommands (singleTL (.text (preprocess s1))) =
        .ok (builtinCommands, singleTL (.text (preprocess s1))) from rfl]
      show outerLoop cfg builtinCommands (all_priorities builtinCommands) cfg.nestingLimit
        (singleTL (.text (preprocess s1))) freshCtx =
        .ok (singleTL (.text (preprocess s1)), freshCtx)
      rw [hm]
      exact outerLoop_allTexts cfg builtinCommands (all_priorities builtinCommands) m
        (singleTL (.text (preprocess s1))) freshCtx (by rfl) (by decide)
    simp [build_latex_core, hconv1, freshCtx]
  · unfold build_latex
    rw [h2]
    have hconv2 := convert_sheets cfg a b t hn hs1 hs2
    have hfold := foldSoup_docFlat3 cfg t hes ht hnn
    simp [build_latex_core, hconv2, hfold, ctxSheets, ha, hb, List.lookup]

/-- Witness for C3 (amended) at a concrete parser and documents. -/
theorem claim3_roundtrip_witness :
    build_latex sampleCfg parseW ("plain") = .error sampleCfg.noSheetIdMsg ∧
    build_latex sampleCfg parseW ("sheeted") =
      .ok ⟨[.textObj ("body")], ("sheeted"), some ("S1"), some ("N1")⟩ := by
  have h := claim3_roundtrip sampleCfg parseW ("plain") ("sheeted") ("S1") ("N1") ("body")
    (by decide) (by decide) (by rfl) (by rfl) (by decide) (by decide) (by decide) (by rfl)
    (by decide) (by decide)
  exact h

/-! ## Claim C10 -/

/-- C10: `GlobalConfig` stores the stripped argument, and `build_latex`
tests the stored value for truthiness, so a `\sheetid` invocation whose
argument is whitespace-only behaves like an absent attribute: the
conversion fails with the missing-sheet-id error. -/
theorem claim10_whitespace_sheet :
    (∀ (cfg : LatexConfig) (ctx : ConvCtx) (name target : String) (contents : TexList)
        (a : String),
      applyCmd cfg (.globalConfig target true) ctx name contents [a] =
        .ok ({ctx with attrs := assocSetS target (pyStrip a) ctx.attrs},
          singleTL (.text ("")))) ∧
    (∀ (cfg : LatexConfig) (a t orig : String), pyStrip a = ("") →
      2 ≤ cfg.nestingLimit →
      (tlStr (singleTL (.text t))).length ≤ cfg.charLimit →
      build_latex_core cfg (docSheetIdOnly a t) orig = .error cfg.noSheetIdMsg) := by
  constructor
  · intro cfg ctx name target contents a
    rfl
  · intro cfg a t orig hstrip hn hst
    have hconv := convert_sheetid cfg a t hn hst
    simp [build_latex_core, hconv, ctxSheetId, hstrip]

/-- Witness for C10: a whitespace-only sheet id is stored as the empty
string and the conversion fails with the missing-sheet-id message. -/
theorem claim10_whitespace_sheet_witness :
    applyCmd sampleCfg (.globalConfig ("sheet_id") true) freshCtx ("sheetid") .nil [("  ")] =
        .ok (⟨[(("problem"), 0), (("letter"), 0)], [(("sheet_id"), (""))]⟩,
          singleTL (.text (""))) ∧
      build_latex_core sampleCfg (docSheetIdOnly ("  ") ("xy")) ("o") =
        .error sampleCfg.noSheetIdMsg := by
  constructor
  · exact claim10_whitespace_sheet.1 sampleCfg freshCtx ("sheetid") ("sheet_id") .nil ("  ")
  · exact claim10_whitespace_sheet.2 sampleCfg ("  ") ("xy") ("o") (by decide) (by decide)
      (by decide)

end Conduit
